import Mathlib

/-!
Verification of `magicbot/inject.py`: the two-phase dependency-injection
core of robotpy-wpilib-utilities.

The embedding models Python runtime artefacts shallowly:
* a runtime type is identified by its method-resolution-order name list;
* a runtime value carries its type (with `PyObj.none` modelling Python's
  `None`, which `dict.get` also returns for absent keys);
* a type hint is a value that may be a genuine type, may carry an
  `__origin__` (parameterized generics), or may be a non-type value;
* dictionaries are ordered association lists, as Python dicts preserve
  insertion order.
-/

namespace MagicInject

/-- A Python runtime type, identified by its method resolution order
(the head of `mro` is the type's own name; `object` sits at the end). -/
structure PyType where
  mro : List String
deriving DecidableEq, Repr

/-- The name of a runtime type (head of its MRO). -/
def PyType.name (t : PyType) : String := t.mro.headD ""

/-- A Python runtime value: either `None` or an object of some type with
an identifying payload. -/
inductive PyObj where
  | none
  | obj (ty : PyType) (payload : String)
deriving DecidableEq, Repr

/-- The MRO of a value's runtime type (`type(v).__mro__`). -/
def PyObj.mro : PyObj → List String
  | .none => ["NoneType", "object"]
  | .obj ty _ => ty.mro

/-- The name of a value's runtime type. -/
def PyObj.typeName : PyObj → String
  | .none => "NoneType"
  | .obj ty _ => ty.name

/-- Python's `isinstance(v, t)`: the value's runtime type is `t` or a
subtype of `t` (subtype-inclusive, via the MRO). -/
def isinstance (v : PyObj) (t : PyType) : Bool :=
  v.mro.contains t.name

/-- The runtime value of a type hint, before looking at `__origin__`:
either a genuine runtime type, or some non-type value identified by its
`repr` string. -/
inductive HintVal where
  | isType (t : PyType)
  | notType (r : String)
deriving DecidableEq, Repr

/-- A type-hint as inspected by `get_injection_requests`: its own value
plus its `__origin__` attribute when present (`getattr(x, "__origin__",
None)`). -/
structure Hint where
  val : HintVal
  origin : Option HintVal
deriving DecidableEq, Repr

/-- Generic normalization (lines 35-38 of `inject.py`): if the hint has
an `__origin__`, that origin replaces the hint's value. -/
def Hint.normalized (h : Hint) : HintVal := h.origin.getD h.val

/-- Whether a hint value is a genuine runtime type (`isinstance(x, type)`). -/
def HintVal.isTypeB : HintVal → Bool
  | .isType _ => true
  | .notType _ => false

/-- The runtime type held by a hint value, when it is one. -/
def HintVal.asType : HintVal → Option PyType
  | .isType t => some t
  | .notType _ => .none

/-- Python's `n.startswith("_")` (line 25): the first character of the
name is an underscore. -/
def startswithUnderscore (n : String) : Bool := n.data.head? == some '_'

/-- A live component instance, modelled by the set of attribute names for
which `hasattr(component, n)` holds. -/
structure Component where
  attrs : List String
deriving DecidableEq, Repr

/-- Python's `hasattr(component, n)` lifted to the optional component
argument: false when no live component is given. -/
def componentHas (component : Option Component) (n : String) : Bool :=
  match component with
  | some c => c.attrs.contains n
  | .none => false

/-- The two exception kinds raised by `inject.py`: `MagicInjectError`
(a `ValueError` subclass) and the builtin `TypeError`. -/
inductive InjectError where
  | magicInjectError (msg : String)
  | typeError (msg : String)
deriving DecidableEq, Repr

/-- Message of the `MagicInjectError` raised for a private name in
constructor-parameter context (line 27). -/
def mkPrivateMsg (cname n : String) : String :=
  s!"Cannot inject into component {cname} __init__ param {n}"

/-- Guidance appended to the non-type message when a live component was
supplied (line 46). -/
def guidanceText : String :=
  "\nLone non-injection variable annotations are disallowed. Did you mean to assign a static variable?"

/-- Message of the `TypeError` raised for a non-type annotation
(lines 41-46): base text, plus guidance exactly when a live component
was supplied. -/
def mkNonTypeMsg (cname n r : String) (hasComponent : Bool) : String :=
  let base := s!"Component {cname} has a non-type annotation {n}: {r}"
  if hasComponent then base ++ guidanceText else base

/-- Message of the `MagicInjectError` raised when no injectable is found
(line 75), rendering the expected type by its name. -/
def mkMissingMsg (cname n tyName : String) : String :=
  s!"Component {cname} has variable {n} (type {tyName}), which is absent from robot"

/-- Message of the `MagicInjectError` raised on a type mismatch
(line 82), rendering both types by name. -/
def mkMismatchMsg (cname n gotName expectedName : String) : String :=
  s!"Component {cname} variable {n} does not match type in robot! (Got {gotName}, expected {expectedName})"

/-- Translation of `get_injection_requests(type_hints, cname, component)`
(lines 11-51): filter the ordered type-hint mapping to the injection
requests, raising on private names without a live component and on
non-type annotations. -/
def get_injection_requests (type_hints : List (String × Hint)) (cname : String)
    (component : Option Component) : Except InjectError (List (String × PyType)) :=
  match type_hints with
  | [] => .ok []
  | (n, hint) :: rest =>
    if startswithUnderscore n then
      match component with
      | .none => .error (.magicInjectError (mkPrivateMsg cname n))
      | some _ => get_injection_requests rest cname component
    else if componentHas component n then
      get_injection_requests rest cname component
    else
      match hint.normalized with
      | .isType t =>
        match get_injection_requests rest cname component with
        | .ok reqs => .ok ((n, t) :: reqs)
        | .error e => .error e
      | .notType r => .error (.typeError (mkNonTypeMsg cname n r component.isSome))

/-- Python's `injectables.get(k)`: the stored value when the key is
present, `None` otherwise. -/
def dictGet (injectables : List (String × PyObj)) (k : String) : PyObj :=
  (injectables.lookup k).getD PyObj.none

/-- The candidate lookup of `find_injections` (lines 68-71): the bare
name first, falling back to the `{cname}_{n}` key when the bare lookup
returned `None`. -/
def effectiveGet (injectables : List (String × PyObj)) (cname n : String) : PyObj :=
  let injectable := dictGet injectables n
  if injectable = PyObj.none then dictGet injectables (cname ++ "_" ++ n) else injectable

/-- Translation of `find_injections(requests, injectables, cname)`
(lines 54-88): resolve each request against the injectable pool in
mapping order, failing fast on a missing injectable or a type mismatch. -/
def find_injections (requests : List (String × PyType))
    (injectables : List (String × PyObj)) (cname : String) :
    Except InjectError (List (String × PyObj)) :=
  match requests with
  | [] => .ok []
  | (n, inject_type) :: rest =>
    let injectable := effectiveGet injectables cname n
    if injectable = PyObj.none then
      .error (.magicInjectError (mkMissingMsg cname n inject_type.name))
    else if isinstance injectable inject_type then
      match find_injections rest injectables cname with
      | .ok to_inject => .ok ((n, injectable) :: to_inject)
      | .error e => .error e
    else
      .error (.magicInjectError (mkMismatchMsg cname n injectable.typeName inject_type.name))

/-- Extraction followed by resolution, the full call chain used by the
host framework. -/
def inject_pipeline (type_hints : List (String × Hint)) (cname : String)
    (component : Option Component) (injectables : List (String × PyObj)) :
    Except InjectError (List (String × PyObj)) :=
  match get_injection_requests type_hints cname component with
  | .ok reqs => find_injections reqs injectables cname
  | .error e => .error e

/-- A request that resolves without error: its candidate lookup yields a
non-`None` value that is an instance of the target type. -/
def resolvesOk (injectables : List (String × PyObj)) (cname : String)
    (p : String × PyType) : Prop :=
  effectiveGet injectables cname p.1 ≠ PyObj.none ∧
    isinstance (effectiveGet injectables cname p.1) p.2 = true

/-- Resolution steps past a prefix of requests that all resolve, and
propagates any error produced by the remaining requests unchanged. -/
lemma find_injections_append_error (pre rest : List (String × PyType))
    (injectables : List (String × PyObj)) (cname : String) (e : InjectError)
    (hpre : ∀ p ∈ pre, resolvesOk injectables cname p)
    (herr : find_injections rest injectables cname = .error e) :
    find_injections (pre ++ rest) injectables cname = .error e := by
  induction pre with
  | nil => simpa using herr
  | cons hd tl ih =>
    obtain ⟨m, s⟩ := hd
    obtain ⟨h1, h2⟩ := hpre (m, s) (List.mem_cons_self _ _)
    have ihr := ih (fun p hp => hpre p (List.mem_cons_of_mem _ hp))
    simp [find_injections, h1, h2, ihr]

/-- Some concrete runtime types used by witnesses. -/
def objectType : PyType := ⟨["object"]⟩

/-- The `int` runtime type. -/
def intType : PyType := ⟨["int", "object"]⟩

/-- The `float` runtime type. -/
def floatType : PyType := ⟨["float", "object"]⟩

/-- C1: extraction on an annotation mapping with no private names, no
already-set attributes, and only valid (possibly generic) type values
returns exactly that mapping with each generic replaced by its origin
type, in input order. -/
theorem c1_extraction_exact (type_hints : List (String × Hint)) (cname : String)
    (component : Option Component)
    (hpriv : ∀ p ∈ type_hints, startswithUnderscore p.1 = false)
    (hset : ∀ p ∈ type_hints, componentHas component p.1 = false)
    (hty : ∀ p ∈ type_hints, p.2.normalized.isTypeB = true) :
    get_injection_requests type_hints cname component =
      .ok (type_hints.map fun p => (p.1, p.2.normalized.asType.getD (PyType.mk []))) := by
  induction type_hints with
  | nil => rfl
  | cons hd tl ih =>
    obtain ⟨n, h⟩ := hd
    have h1 := hpriv (n, h) (List.mem_cons_self _ _)
    have h2 := hset (n, h) (List.mem_cons_self _ _)
    have h3 := hty (n, h) (List.mem_cons_self _ _)
    have ihr := ih (fun p hp => hpriv p (List.mem_cons_of_mem _ hp))
      (fun p hp => hset p (List.mem_cons_of_mem _ hp))
      (fun p hp => hty p (List.mem_cons_of_mem _ hp))
    cases hv : h.normalized with
    | isType t => simp [get_injection_requests, h1, h2, hv, ihr, HintVal.asType]
    | notType r => rw [hv] at h3; simp [HintVal.isTypeB] at h3

/-- C1 witness: a concrete plain hint and a concrete parameterized hint
are both extracted, the generic one reduced to its origin type. -/
theorem c1_extraction_exact_witness :
    get_injection_requests
      [("speed", ⟨.isType floatType, Option.none⟩),
       ("counts", ⟨.notType "list[int]", some (.isType ⟨["list", "object"]⟩)⟩)]
      "drivetrain" Option.none =
      .ok [("speed", floatType), ("counts", ⟨["list", "object"]⟩)] := by
  simpa using c1_extraction_exact
    [("speed", ⟨.isType floatType, Option.none⟩),
     ("counts", ⟨.notType "list[int]", some (.isType ⟨["list", "object"]⟩)⟩)]
    "drivetrain" Option.none (by decide) (by decide) (by decide)

/-- C2 counterexample: the bare key is present in the pool and its value
(Python `None`) is an instance of the requested type `object`, yet
resolution does not return it: the code treats the stored `None` as
absent and fails with the missing-injectable error. -/
theorem c2_counterexample :
    (([("x", PyObj.none)] : List (String × PyObj)).lookup "x" = some PyObj.none) ∧
    isinstance PyObj.none objectType = true ∧
    find_injections [("x", objectType)] [("x", PyObj.none)] "c" =
      .error (.magicInjectError (mkMissingMsg "c" "x" "object")) :=
  ⟨rfl, rfl, rfl⟩

/-- C2 (amended): when every request's bare name is present in the pool
with a non-`None` value that is an instance of the target type,
resolution succeeds and returns each such pooled value under the plain
attribute name. -/
theorem c2_direct_lookup (requests : List (String × PyType))
    (injectables : List (String × PyObj)) (cname : String)
    (h : ∀ p ∈ requests, dictGet injectables p.1 ≠ PyObj.none ∧
      isinstance (dictGet injectables p.1) p.2 = true) :
    find_injections requests injectables cname =
      .ok (requests.map fun p => (p.1, dictGet injectables p.1)) := by
  induction requests with
  | nil => rfl
  | cons hd tl ih =>
    obtain ⟨n, t⟩ := hd
    obtain ⟨h1, h2⟩ := h (n, t) (List.mem_cons_self _ _)
    have ihr := ih (fun p hp => h p (List.mem_cons_of_mem _ hp))
    have heff : effectiveGet injectables cname n = dictGet injectables n := by
      simp [effectiveGet, h1]
    simp [find_injections, heff, h1, h2, ihr]

/-- C2 witness: the spec's direct-lookup example resolves. -/
theorem c2_direct_lookup_witness :
    find_injections [("speed", floatType)]
      [("speed", PyObj.obj floatType "3.5")] "drivetrain" =
      .ok [("speed", PyObj.obj floatType "3.5")] := by
  simpa using c2_direct_lookup [("speed", floatType)]
    [("speed", PyObj.obj floatType "3.5")] "drivetrain" (by decide)

/-- C3 counterexample: the bare name is absent and the prefixed key
`c_x` is present with value `None`, an instance of the requested type
`object`, yet resolution fails with the missing-injectable error
instead of returning it. -/
theorem c3_counterexample :
    (([("c_x", PyObj.none)] : List (String × PyObj)).lookup "x" = Option.none) ∧
    (([("c_x", PyObj.none)] : List (String × PyObj)).lookup "c_x" = some PyObj.none) ∧
    isinstance PyObj.none objectType = true ∧
    find_injections [("x", objectType)] [("c_x", PyObj.none)] "c" =
      .error (.magicInjectError (mkMissingMsg "c" "x" "object")) :=
  ⟨rfl, rfl, rfl, rfl⟩

/-- C3 (amended): when every request's bare name is absent from the pool
and the prefixed `{cname}_{name}` key holds a non-`None` value that is
an instance of the target type, resolution succeeds and returns each
prefixed value under the bare attribute name. -/
theorem c3_prefixed_lookup (requests : List (String × PyType))
    (injectables : List (String × PyObj)) (cname : String)
    (h : ∀ p ∈ requests, injectables.lookup p.1 = Option.none ∧
      dictGet injectables (cname ++ "_" ++ p.1) ≠ PyObj.none ∧
      isinstance (dictGet injectables (cname ++ "_" ++ p.1)) p.2 = true) :
    find_injections requests injectables cname =
      .ok (requests.map fun p => (p.1, dictGet injectables (cname ++ "_" ++ p.1))) := by
  induction requests with
  | nil => rfl
  | cons hd tl ih =>
    obtain ⟨n, t⟩ := hd
    obtain ⟨h1, h2, h3⟩ := h (n, t) (List.mem_cons_self _ _)
    have ihr := ih (fun p hp => h p (List.mem_cons_of_mem _ hp))
    have heff : effectiveGet injectables cname n =
        dictGet injectables (cname ++ "_" ++ n) := by
      simp [effectiveGet, dictGet, h1]
    simp [find_injections, heff, h2, h3, ihr]

/-- C3 witness: the spec's prefixed-fallback example resolves. -/
theorem c3_prefixed_lookup_witness :
    find_injections [("speed", floatType)]
      [("drivetrain_speed", PyObj.obj floatType "3.5")] "drivetrain" =
      .ok [("speed", PyObj.obj floatType "3.5")] := by
  simpa using c3_prefixed_lookup [("speed", floatType)]
    [("drivetrain_speed", PyObj.obj floatType "3.5")] "drivetrain" (by decide)

/-- C4: when resolution reaches a request found under neither the bare
name nor the prefixed key (all earlier requests having resolved), it
fails with the missing-injectable error naming that request, whatever
requests follow; moreover any request set containing such a request can
only produce an error, never a partial result. -/
theorem c4_missing_fail_fast (pre post : List (String × PyType)) (n : String)
    (t : PyType) (injectables : List (String × PyObj)) (cname : String)
    (hpre : ∀ p ∈ pre, resolvesOk injectables cname p)
    (habs1 : injectables.lookup n = Option.none)
    (habs2 : injectables.lookup (cname ++ "_" ++ n) = Option.none) :
    find_injections (pre ++ (n, t) :: post) injectables cname =
      .error (.magicInjectError (mkMissingMsg cname n t.name)) ∧
    ∀ requests : List (String × PyType),
      (∃ p ∈ requests, injectables.lookup p.1 = Option.none ∧
        injectables.lookup (cname ++ "_" ++ p.1) = Option.none) →
      ∃ e, find_injections requests injectables cname = .error e := by
  constructor
  · exact find_injections_append_error pre _ injectables cname _ hpre
      (by simp [find_injections, effectiveGet, dictGet, habs1, habs2])
  · intro requests
    induction requests with
    | nil =>
      rintro ⟨p, hp, -⟩
      exact absurd hp (List.not_mem_nil p)
    | cons hd tl ih =>
      rintro ⟨p, hp, hl1, hl2⟩
      obtain ⟨m, s⟩ := hd
      by_cases hng : effectiveGet injectables cname m = PyObj.none
      · exact ⟨.magicInjectError (mkMissingMsg cname m s.name),
          by simp [find_injections, hng]⟩
      · rcases List.mem_cons.mp hp with hph | hpt
        · refine absurd ?_ hng
          subst hph
          simp [effectiveGet, dictGet, hl1, hl2]
        · obtain ⟨e, he⟩ := ih ⟨p, hpt, hl1, hl2⟩
          by_cases hin : isinstance (effectiveGet injectables cname m) s = true
          · exact ⟨e, by simp [find_injections, hng, hin, he]⟩
          · exact ⟨.magicInjectError (mkMismatchMsg cname m
              (effectiveGet injectables cname m).typeName s.name),
              by simp [find_injections, hng, hin]⟩

/-- C4 witness: with an empty pool, a request set whose first entry is
absent fails with the missing-injectable error and the later request is
never consulted. -/
theorem c4_missing_fail_fast_witness :
    find_injections [("x", intType), ("later", intType)] [] "c" =
      .error (.magicInjectError (mkMissingMsg "c" "x" "int")) :=
  (c4_missing_fail_fast [] [("later", intType)] "x" intType [] "c"
    (fun p hp => absurd hp (List.not_mem_nil p)) rfl rfl).1

/-- C5: when resolution reaches a request (all earlier requests having
resolved) whose candidate value is found, directly or via the prefixed
fallback, but is not an instance of the target type, it fails with the
type-mismatch error naming the component, the attribute, the actual
type and the expected type. -/
theorem c5_type_mismatch (pre post : List (String × PyType)) (n : String)
    (t : PyType) (injectables : List (String × PyObj)) (cname : String)
    (hpre : ∀ p ∈ pre, resolvesOk injectables cname p)
    (hfound : effectiveGet injectables cname n ≠ PyObj.none)
    (hmis : isinstance (effectiveGet injectables cname n) t = false) :
    find_injections (pre ++ (n, t) :: post) injectables cname =
      .error (.magicInjectError (mkMismatchMsg cname n
        (effectiveGet injectables cname n).typeName t.name)) :=
  find_injections_append_error pre _ injectables cname _ hpre
    (by simp [find_injections, hfound, hmis])

/-- C5 witness: the spec's example, a pool value of type `float` offered
for a request declared as `int`, fails with the type-mismatch error. -/
theorem c5_type_mismatch_witness :
    find_injections [("speed", intType)]
      [("speed", PyObj.obj floatType "3.5")] "c" =
      .error (.magicInjectError (mkMismatchMsg "c" "speed" "float" "int")) := by
  simpa using c5_type_mismatch [] [] "speed" intType
    [("speed", PyObj.obj floatType "3.5")] "c"
    (fun p hp => absurd hp (List.not_mem_nil p)) (by decide) (by decide)

/-- C6: for an annotation with a private name reached during extraction
(earlier entries being well-formed), extraction with no live component
fails with the configuration error naming the component and parameter,
while extraction with a live component silently drops the entry,
whatever its hint value. -/
theorem c6_private_names (pre post : List (String × Hint)) (n : String)
    (h : Hint) (cname : String) (c : Component)
    (hn : startswithUnderscore n = true)
    (hpre : ∀ p ∈ pre, startswithUnderscore p.1 = false ∧
      p.2.normalized.isTypeB = true) :
    get_injection_requests (pre ++ (n, h) :: post) cname Option.none =
      .error (.magicInjectError (mkPrivateMsg cname n)) ∧
    get_injection_requests (pre ++ (n, h) :: post) cname (some c) =
      get_injection_requests (pre ++ post) cname (some c) := by
  constructor
  · induction pre with
    | nil => simp [get_injection_requests, hn]
    | cons hd tl ih =>
      obtain ⟨m, hh⟩ := hd
      obtain ⟨h1, h2⟩ := hpre (m, hh) (List.mem_cons_self _ _)
      have ihr := ih (fun p hp => hpre p (List.mem_cons_of_mem _ hp))
      cases hv : hh.normalized with
      | isType t => simp [get_injection_requests, h1, componentHas, hv, ihr]
      | notType r => rw [hv] at h2; simp [HintVal.isTypeB] at h2
  · induction pre with
    | nil => simp [get_injection_requests, hn]
    | cons hd tl ih =>
      obtain ⟨m, hh⟩ := hd
      have ihr := ih (fun p hp => hpre p (List.mem_cons_of_mem _ hp))
      by_cases hm : startswithUnderscore m = true
      · simp [get_injection_requests, hm, ihr]
      · by_cases hc : componentHas (some c) m = true
        · simp [get_injection_requests, hm, hc, ihr]
        · cases hv : hh.normalized with
          | isType t => simp [get_injection_requests, hm, hc, hv, ihr]
          | notType r => simp [get_injection_requests, hm, hc, hv]

/-- C6 witness: the spec's example `_secret` with no live component
fails with the configuration error, and with a live component the entry
is dropped, yielding the empty request set. -/
theorem c6_private_names_witness :
    get_injection_requests [("_secret", ⟨.isType intType, Option.none⟩)]
      "c" Option.none = .error (.magicInjectError (mkPrivateMsg "c" "_secret")) ∧
    get_injection_requests [("_secret", ⟨.isType intType, Option.none⟩)]
      "c" (some ⟨[]⟩) = .ok [] :=
  ⟨(c6_private_names [] [] "_secret" ⟨.isType intType, Option.none⟩ "c" ⟨[]⟩
      rfl (fun p hp => absurd hp (List.not_mem_nil p))).1,
   (c6_private_names [] [] "_secret" ⟨.isType intType, Option.none⟩ "c" ⟨[]⟩
      rfl (fun p hp => absurd hp (List.not_mem_nil p))).2⟩

/-- C7: for an annotation reached during extraction whose value is not a
genuine type after generic normalization (earlier entries being
recorded), extraction fails with the type error naming the component
and attribute, and the message carries the extra guidance text exactly
when a live component was supplied. -/
theorem c7_nontype_error (pre post : List (String × Hint)) (n r : String)
    (h : Hint) (cname : String) (component : Option Component)
    (hpre : ∀ p ∈ pre, startswithUnderscore p.1 = false ∧
      componentHas component p.1 = false ∧ p.2.normalized.isTypeB = true)
    (hn : startswithUnderscore n = false)
    (hset : componentHas component n = false)
    (hnorm : h.normalized = .notType r) :
    get_injection_requests (pre ++ (n, h) :: post) cname component =
      .error (.typeError (mkNonTypeMsg cname n r component.isSome)) ∧
    ∀ cn m rr, mkNonTypeMsg cn m rr true = mkNonTypeMsg cn m rr false ++ guidanceText := by
  constructor
  · induction pre with
    | nil => simp [get_injection_requests, hn, hset, hnorm]
    | cons hd tl ih =>
      obtain ⟨m, hh⟩ := hd
      obtain ⟨h1, h2, h3⟩ := hpre (m, hh) (List.mem_cons_self _ _)
      have ihr := ih (fun p hp => hpre p (List.mem_cons_of_mem _ hp))
      cases hv : hh.normalized with
      | isType t => simp [get_injection_requests, h1, h2, hv, ihr]
      | notType rr => rw [hv] at h3; simp [HintVal.isTypeB] at h3
  · intro cn m rr
    simp [mkNonTypeMsg]

/-- C7 witness: a non-type annotation fails in both modes, with the
guidance text appearing exactly in the live-component message. -/
theorem c7_nontype_error_witness :
    get_injection_requests [("x", ⟨.notType "5", Option.none⟩)] "c" Option.none =
      .error (.typeError (mkNonTypeMsg "c" "x" "5" false)) ∧
    get_injection_requests [("x", ⟨.notType "5", Option.none⟩)] "c" (some ⟨[]⟩) =
      .error (.typeError (mkNonTypeMsg "c" "x" "5" true)) ∧
    mkNonTypeMsg "c" "x" "5" true = mkNonTypeMsg "c" "x" "5" false ++ guidanceText :=
  ⟨(c7_nontype_error [] [] "x" "5" ⟨.notType "5", Option.none⟩ "c" Option.none
      (fun p hp => absurd hp (List.not_mem_nil p)) rfl rfl rfl).1,
   (c7_nontype_error [] [] "x" "5" ⟨.notType "5", Option.none⟩ "c" (some ⟨[]⟩)
      (fun p hp => absurd hp (List.not_mem_nil p)) rfl rfl rfl).1,
   (c7_nontype_error [] [] "x" "5" ⟨.notType "5", Option.none⟩ "c" Option.none
      (fun p hp => absurd hp (List.not_mem_nil p)) rfl rfl rfl).2 "c" "x" "5"⟩

/-- C8: an annotation whose name a supplied live component already has
as an attribute is dropped by extraction with no error, whatever its
hint value is: the run is identical to the run without that entry, so
the validity check is never reached for it. -/
theorem c8_already_set (pre post : List (String × Hint)) (n : String)
    (h : Hint) (cname : String) (c : Component)
    (hmem : c.attrs.contains n = true) :
    get_injection_requests (pre ++ (n, h) :: post) cname (some c) =
      get_injection_requests (pre ++ post) cname (some c) := by
  induction pre with
  | nil =>
    by_cases hn : startswithUnderscore n = true
    · simp [get_injection_requests, hn]
    · have hc : componentHas (some c) n = true := hmem
      simp [get_injection_requests, hn, hc]
  | cons hd tl ih =>
    obtain ⟨m, hh⟩ := hd
    by_cases hm : startswithUnderscore m = true
    · simp [get_injection_requests, hm, ih]
    · by_cases hc : componentHas (some c) m = true
      · simp [get_injection_requests, hm, hc, ih]
      · cases hv : hh.normalized with
        | isType t => simp [get_injection_requests, hm, hc, hv, ih]
        | notType r => simp [get_injection_requests, hm, hc, hv]

/-- C8 witness: an already-set attribute with an invalid (non-type)
hint is silently skipped. -/
theorem c8_already_set_witness :
    get_injection_requests [("speed", ⟨.notType "5", Option.none⟩)]
      "c" (some ⟨["speed"]⟩) = .ok [] :=
  c8_already_set [] [] "speed" ⟨.notType "5", Option.none⟩ "c" ⟨["speed"]⟩ rfl

/-- C9: extraction followed by resolution is a pure function of the
annotations, the component name, the component state and the pool: two
calls on identical inputs yield identical results or identical
failures. -/
theorem c9_deterministic (th1 th2 : List (String × Hint)) (cn1 cn2 : String)
    (co1 co2 : Option Component) (inj1 inj2 : List (String × PyObj))
    (hth : th1 = th2) (hcn : cn1 = cn2) (hco : co1 = co2) (hinj : inj1 = inj2) :
    inject_pipeline th1 cn1 co1 inj1 = inject_pipeline th2 cn2 co2 inj2 := by
  subst hth hcn hco hinj
  rfl

/-- C9 witness: two runs of the pipeline on the same concrete inputs
agree. -/
theorem c9_deterministic_witness :
    inject_pipeline [("speed", ⟨.isType floatType, Option.none⟩)] "drivetrain"
      Option.none [("speed", PyObj.obj floatType "3.5")] =
    inject_pipeline [("speed", ⟨.isType floatType, Option.none⟩)] "drivetrain"
      Option.none [("speed", PyObj.obj floatType "3.5")] :=
  c9_deterministic _ _ _ _ _ _ _ _ rfl rfl rfl rfl

/-- C10: a pooled `None` is indistinguishable from absence: when
resolution reaches a request whose bare key is present with value
`None` and whose prefixed key also yields `None`, it fails with the
missing-injectable error even though the bare key exists; when the
prefixed key holds a usable value, that value is taken instead; and no
successful resolution ever contains `None`. -/
theorem c10_none_is_absent :
    (∀ (pre post : List (String × PyType)) (n : String) (t : PyType)
        (injectables : List (String × PyObj)) (cname : String),
      (∀ p ∈ pre, resolvesOk injectables cname p) →
      injectables.lookup n = some PyObj.none →
      dictGet injectables (cname ++ "_" ++ n) = PyObj.none →
      find_injections (pre ++ (n, t) :: post) injectables cname =
        .error (.magicInjectError (mkMissingMsg cname n t.name))) ∧
    (∀ (n cname : String) (t : PyType) (v : PyObj)
        (injectables : List (String × PyObj)),
      injectables.lookup n = some PyObj.none →
      dictGet injectables (cname ++ "_" ++ n) = v →
      v ≠ PyObj.none → isinstance v t = true →
      find_injections [(n, t)] injectables cname = .ok [(n, v)]) ∧
    (∀ (requests : List (String × PyType)) (injectables : List (String × PyObj))
        (cname : String) (res : List (String × PyObj)),
      find_injections requests injectables cname = .ok res →
      ∀ p ∈ res, p.2 ≠ PyObj.none) := by
  refine ⟨?_, ?_, ?_⟩
  · intro pre post n t injectables cname hpre h1 h2
    have hb : dictGet injectables n = PyObj.none := by simp [dictGet, h1]
    exact find_injections_append_error pre _ injectables cname _ hpre
      (by simp [find_injections, effectiveGet, hb, h2])
  · intro n cname t v injectables h1 h2 h3 h4
    have hb : dictGet injectables n = PyObj.none := by simp [dictGet, h1]
    have heff : effectiveGet injectables cname n = v := by
      simp [effectiveGet, hb, h2]
    simp [find_injections, heff, h3, h4]
  · intro requests
    induction requests with
    | nil =>
      intro injectables cname res hres p hp
      rw [show find_injections [] injectables cname = .ok [] from rfl] at hres
      cases hres
      exact absurd hp (List.not_mem_nil p)
    | cons hd tl ih =>
      intro injectables cname res hres p hp
      obtain ⟨m, s⟩ := hd
      by_cases hng : effectiveGet injectables cname m = PyObj.none
      · simp [find_injections, hng] at hres
      · by_cases hin : isinstance (effectiveGet injectables cname m) s = true
        · rw [show find_injections ((m, s) :: tl) injectables cname =
              match find_injections tl injectables cname with
              | .ok to_inject => .ok ((m, effectiveGet injectables cname m) :: to_inject)
              | .error e => .error e from by simp [find_injections, hng, hin]] at hres
          cases htl : find_injections tl injectables cname with
          | ok r =>
            rw [htl] at hres
            cases hres
            rcases List.mem_cons.mp hp with hph | hpt
            · subst hph
              exact hng
            · exact ih injectables cname r htl p hpt
          | error e => rw [htl] at hres; cases hres
        · simp [find_injections, hng, hin] at hres

/-- C10 witness: a pool whose bare key stores `None` and has no
prefixed key fails with the missing-injectable error despite the key
being present. -/
theorem c10_none_is_absent_witness :
    find_injections [("x", objectType)] [("x", PyObj.none)] "comp" =
      .error (.magicInjectError (mkMissingMsg "comp" "x" "object")) :=
  c10_none_is_absent.1 [] [] "x" objectType [("x", PyObj.none)] "comp"
    (fun p hp => absurd hp (List.not_mem_nil p)) rfl rfl

end MagicInject
